import Mathlib

/-!
# Verification of the friday-styles core

Shallow embedding of the repository's core logic, translated from the
TypeScript source:

* `src/lib/utils/excalidraw.ts` — drawing-element engine (`ensureUniqueIds`,
  `mergeElements`, `compressElement`, `applyDesignSystemDefaults`,
  `defaultDesignSystem`);
* `src/lib/utils/storage.ts` — generic document store (`deepMerge`, `get`,
  `save`, `update`);
* `src/lib/utils/cleanup.ts` — `applyPreset`, `cleanupState`;
* `src/lib/utils/id.ts` — `generateId`;
* `src/tools/user/manage-goal.ts` — key-result id allocation in the
  goal-create branch.

JavaScript numbers appear only in equality comparisons and additions on
integral values in the embedded functions, so they are modelled as `Int`
(no rounding-sensitive arithmetic occurs).  JavaScript `undefined` on an
optional field is `Option.none`; a field typed `T | null` that is itself
optional is `Option (Option T)` (`some none` = `null`).
-/

namespace FridayStyles

/-! ## Drawing-element data model (src/lib/utils/excalidraw.ts) -/

inductive ElementType
  | rectangle | ellipse | diamond | arrow | line | freedraw | text | image
deriving DecidableEq

inductive StrokeStyle
  | solid | dashed | dotted
deriving DecidableEq

inductive FillStyle
  | solid | hachure | crossHatch | zigzag | zigzagLine
deriving DecidableEq

inductive StrokeSharpness
  | round | sharp
deriving DecidableEq

inductive TextAlign
  | left | center | right
deriving DecidableEq

inductive VerticalAlign
  | top | middle | bottom
deriving DecidableEq

/-- The `{ type: number }` shape of the `roundness` field. -/
structure Roundness where
  type : Int
deriving DecidableEq

/-- `ExcalidrawElement` from src/lib/utils/excalidraw.ts.  The four fields of
TypeScript type `unknown`/`unknown[]` (`boundElements`, `boundElementIds`,
`startBinding`, `endBinding`) carry no structure that any embedded function
inspects (they are only ever dropped by `compressElement`) and are omitted. -/
@[ext]
structure Element where
  id : String
  type : ElementType
  x : Int
  y : Int
  width : Int
  height : Int
  angle : Option Int := none
  strokeColor : Option String := none
  strokeWidth : Option Int := none
  strokeStyle : Option StrokeStyle := none
  fillStyle : Option FillStyle := none
  backgroundColor : Option String := none
  roughness : Option Int := none
  opacity : Option Int := none
  roundness : Option (Option Roundness) := none
  strokeSharpness : Option StrokeSharpness := none
  groupIds : Option (List String) := none
  frameId : Option (Option String) := none
  points : Option (List (List Int)) := none
  text : Option String := none
  fontSize : Option Int := none
  fontFamily : Option Int := none
  textAlign : Option TextAlign := none
  verticalAlign : Option VerticalAlign := none
  baseline : Option Int := none
  version : Option Int := none
  versionNonce : Option Int := none
  isDeleted : Option Bool := none
  seed : Option Int := none
  updated : Option Int := none
  link : Option (Option String) := none
  locked : Option Bool := none
  lastCommittedPoint : Option (Option (List Int)) := none
  startArrowhead : Option (Option String) := none
  endArrowhead : Option (Option String) := none
  index : Option String := none
  containerId : Option (Option String) := none
  originalText : Option String := none
deriving DecidableEq

/-- The ids of a list of elements, in order. -/
def elementIds (l : List Element) : List String := l.map Element.id

/-- A minimal rectangle element with a given id, used for concrete
instances. -/
def sampleRect (s : String) : Element where
  id := s
  type := ElementType.rectangle
  x := 0
  y := 0
  width := 1
  height := 1

/-- A rectangle whose every optional visual-style field carries the
design-system default value, used for concrete instances. -/
def defaultStyledRect : Element where
  id := "a"
  type := ElementType.rectangle
  x := 0
  y := 0
  width := 10
  height := 10
  strokeColor := some "#000000"
  strokeWidth := some 2
  strokeStyle := some StrokeStyle.solid
  fillStyle := some FillStyle.solid
  backgroundColor := some "transparent"
  roughness := some 1
  opacity := some 100
  roundness := some (some ⟨1⟩)
  strokeSharpness := some StrokeSharpness.round
  fontSize := some 20
  fontFamily := some 1
  textAlign := some TextAlign.left
  verticalAlign := some VerticalAlign.top

/-! ## Id generation and merging

`generateElementId` draws random 20-character ids and retries until the id is
outside the exclusion set; the only property any caller relies on — and the
one the retry loop guarantees — is that the returned id is not in the set.
Randomness is modelled by passing the generator as a parameter `gen` together
with the freshness hypothesis `∀ u, gen u ∉ u`; `concatFresh` below is a
concrete executable generator satisfying it. -/

/-- A deterministic stand-in for `generateElementId`: concatenating every used
id and appending a character yields a string strictly longer than (hence
different from) every used id. -/
def concatFresh (used : List String) : String :=
  (used.foldl (· ++ ·) "") ++ "x"

/-- `ensureUniqueIds` from src/lib/utils/excalidraw.ts: the `elements.map`
with the mutable `usedIds` set, written as a recursion threading the set
(modelled as a list with membership). -/
def ensureUniqueIdsGo (gen : List String → String) :
    List String → List Element → List Element
  | _, [] => []
  | used, e :: rest =>
    if e.id ∈ used then
      let newId := gen used
      { e with id := newId } :: ensureUniqueIdsGo gen (newId :: used) rest
    else
      e :: ensureUniqueIdsGo gen (e.id :: used) rest

def ensureUniqueIds (gen : List String → String)
    (elements : List Element) (existingIds : List String) : List Element :=
  ensureUniqueIdsGo gen existingIds elements

/-- The `regenerateIds: false` branch of `mergeElements`: each new element is
checked against the growing exclusion set and the first conflict throws
`Element ID conflict: <id>`. -/
def mergeNoRegenGo : List String → List Element → Except String (List Element)
  | _, [] => .ok []
  | used, e :: rest =>
    if e.id ∈ used then
      .error ("Element ID conflict: " ++ e.id)
    else
      (mergeNoRegenGo (e.id :: used) rest).map (e :: ·)

/-- `mergeElements` from src/lib/utils/excalidraw.ts.  The thrown error is the
`Except.error` case; `regenerateIds` is the boolean
`options.regenerateIds !== false`. -/
def mergeElements (gen : List String → String)
    (existing newElements : List Element) (regenerateIds : Bool) :
    Except String (List Element) :=
  let existingIds := elementIds existing
  if regenerateIds then
    .ok (existing ++ ensureUniqueIds gen newElements existingIds)
  else
    (mergeNoRegenGo existingIds newElements).map (existing ++ ·)

/-! ## Compression and design-system defaults -/

/-- `compressElement` from src/lib/utils/excalidraw.ts.  The source builds the
result from the six mandatory fields and then runs a sequence of conditional
assignments, each touching a single distinct field; since the conditions read
only the input `element`, the sequence is translated field-wise.  JavaScript
truthiness on a string field (`if (element.strokeColor)`,
`element.backgroundColor && ...`) is "present and non-empty"; on an
always-non-empty enum string it is "present".  The `roundness` comparison via
`JSON.stringify` against `{type:1}` is equality of the `type` component. -/
def compressElement (element : Element) : Element where
  type := element.type
  id := element.id
  x := element.x
  y := element.y
  width := element.width
  height := element.height
  angle := match element.angle with
    | some a => if a = 0 then none else some a
    | none => none
  strokeColor := match element.strokeColor with
    | some s => if s = "" then none else some s
    | none => none
  strokeWidth := match element.strokeWidth with
    | some w => if w = 1 ∨ w = 2 then none else some w
    | none => none
  strokeStyle := match element.strokeStyle with
    | some s => if s = StrokeStyle.solid then none else some s
    | none => none
  strokeSharpness := match element.strokeSharpness with
    | some s => if s = StrokeSharpness.round then none else some s
    | none => none
  fillStyle := match element.fillStyle with
    | some s => if s = FillStyle.solid then none else some s
    | none => none
  backgroundColor := match element.backgroundColor with
    | some s => if s = "" ∨ s = "transparent" then none else some s
    | none => none
  roughness := match element.roughness with
    | some r => if r = 1 then none else some r
    | none => none
  opacity := match element.opacity with
    | some o => if o = 100 then none else some o
    | none => none
  roundness := match element.roundness with
    | some (some r) => if r.type = 1 then none else some (some r)
    | _ => none
  points := match element.points with
    | some ps => if ps = [] then none else some ps
    | none => none
  text := element.text
  fontSize := element.fontSize
  fontFamily := element.fontFamily
  textAlign := match element.textAlign with
    | some a => if a = TextAlign.left then none else some a
    | none => none
  verticalAlign := match element.verticalAlign with
    | some a => if a = VerticalAlign.top then none else some a
    | none => none
  baseline := element.baseline
  groupIds := match element.groupIds with
    | some gs => if gs = [] then none else some gs
    | none => none
  frameId := match element.frameId with
    | some (some f) => some (some f)
    | _ => none

/-- The `defaults` record of the `DesignSystem` interface. -/
structure DesignDefaults where
  strokeColor : Option String := none
  strokeWidth : Option Int := none
  strokeStyle : Option StrokeStyle := none
  strokeSharpness : Option StrokeSharpness := none
  fillStyle : Option FillStyle := none
  backgroundColor : Option String := none
  roughness : Option Int := none
  opacity : Option Int := none
  roundness : Option (Option Roundness) := none
  fontSize : Option Int := none
  fontFamily : Option Int := none
  textAlign : Option TextAlign := none
  verticalAlign : Option VerticalAlign := none
deriving DecidableEq

structure DesignSystem where
  version : Int
  defaults : DesignDefaults
deriving DecidableEq

/-- `defaultDesignSystem` from src/lib/utils/excalidraw.ts. -/
def defaultDesignSystem : DesignSystem where
  version := 1
  defaults :=
    { strokeColor := some "#000000"
      strokeWidth := some 2
      strokeStyle := some StrokeStyle.solid
      strokeSharpness := some StrokeSharpness.round
      fillStyle := some FillStyle.solid
      backgroundColor := some "transparent"
      roughness := some 1
      opacity := some 100
      roundness := some (some ⟨1⟩)
      fontSize := some 20
      fontFamily := some 1
      textAlign := some TextAlign.left
      verticalAlign := some VerticalAlign.top }

/-- `Partial<ExcalidrawElement>` as taken by `applyDesignSystemDefaults`:
every field, the mandatory ones included, may be absent. -/
structure PartialElement where
  id : Option String := none
  type : Option ElementType := none
  x : Option Int := none
  y : Option Int := none
  width : Option Int := none
  height : Option Int := none
  angle : Option Int := none
  strokeColor : Option String := none
  strokeWidth : Option Int := none
  strokeStyle : Option StrokeStyle := none
  fillStyle : Option FillStyle := none
  backgroundColor : Option String := none
  roughness : Option Int := none
  opacity : Option Int := none
  roundness : Option (Option Roundness) := none
  strokeSharpness : Option StrokeSharpness := none
  groupIds : Option (List String) := none
  frameId : Option (Option String) := none
  points : Option (List (List Int)) := none
  text : Option String := none
  fontSize : Option Int := none
  fontFamily : Option Int := none
  textAlign : Option TextAlign := none
  verticalAlign : Option VerticalAlign := none
  baseline : Option Int := none
deriving DecidableEq

/-- View an element as the partial element with every field present
(a TypeScript `ExcalidrawElement` is assignable to
`Partial<ExcalidrawElement>`). -/
def Element.toPartial (e : Element) : PartialElement where
  id := some e.id
  type := some e.type
  x := some e.x
  y := some e.y
  width := some e.width
  height := some e.height
  angle := e.angle
  strokeColor := e.strokeColor
  strokeWidth := e.strokeWidth
  strokeStyle := e.strokeStyle
  fillStyle := e.fillStyle
  backgroundColor := e.backgroundColor
  roughness := e.roughness
  opacity := e.opacity
  roundness := e.roundness
  strokeSharpness := e.strokeSharpness
  groupIds := e.groupIds
  frameId := e.frameId
  points := e.points
  text := e.text
  fontSize := e.fontSize
  fontFamily := e.fontFamily
  textAlign := e.textAlign
  verticalAlign := e.verticalAlign
  baseline := e.baseline

/-- JavaScript `??` on a value that is itself optional on both sides. -/
def jsCoalesce {α : Type} (a b : Option α) : Option α :=
  match a with
  | some v => some v
  | none => b

/-- JavaScript `??` on a nullable optional value (`undefined` and `null` both
fall through to the default). -/
def jsCoalesceNullable {α : Type} (a b : Option (Option α)) : Option (Option α) :=
  match a with
  | some (some v) => some (some v)
  | _ => b

/-- `applyDesignSystemDefaults` from src/lib/utils/excalidraw.ts.  The source
reads the current design system from disk (`getDesignSystem()`); here the
design system is a parameter, and the random `generateElementId(new Set())`
used when `element.id` is falsy is the parameter `gen` applied to the empty
exclusion set.  `element.id || ...` falls through on a missing or empty id;
`element.type || "rectangle"` never falls through on a present enum value. -/
def applyDesignSystemDefaults (gen : List String → String)
    (designSystem : DesignSystem) (element : PartialElement) : Element :=
  let defaults := designSystem.defaults
  { id := match element.id with
      | some s => if s = "" then gen [] else s
      | none => gen []
    type := element.type.getD ElementType.rectangle
    x := element.x.getD 0
    y := element.y.getD 0
    width := element.width.getD 100
    height := element.height.getD 100
    strokeColor := jsCoalesce element.strokeColor defaults.strokeColor
    strokeWidth := jsCoalesce element.strokeWidth defaults.strokeWidth
    strokeStyle := jsCoalesce element.strokeStyle defaults.strokeStyle
    strokeSharpness := jsCoalesce element.strokeSharpness defaults.strokeSharpness
    fillStyle := jsCoalesce element.fillStyle defaults.fillStyle
    backgroundColor := jsCoalesce element.backgroundColor defaults.backgroundColor
    roughness := jsCoalesce element.roughness defaults.roughness
    opacity := jsCoalesce element.opacity defaults.opacity
    roundness := jsCoalesceNullable element.roundness defaults.roundness
    fontSize := jsCoalesce element.fontSize defaults.fontSize
    fontFamily := jsCoalesce element.fontFamily defaults.fontFamily
    textAlign := jsCoalesce element.textAlign defaults.textAlign
    verticalAlign := jsCoalesce element.verticalAlign defaults.verticalAlign
    angle := element.angle
    points := element.points
    text := element.text
    baseline := element.baseline
    groupIds := element.groupIds
    frameId := element.frameId }

/-! ## Generic document store (src/lib/utils/storage.ts)

Documents that cross the store boundary are plain JavaScript values; they are
modelled by `JsonVal`, and a plain object by its ordered field list. -/

inductive JsonVal
  | str (s : String)
  | num (n : Int)
  | bool (b : Bool)
  | null
  | arr (items : List JsonVal)
  | obj (fields : List (String × JsonVal))

/-- Field list of a plain JavaScript object, in property order. -/
abbrev Fields := List (String × JsonVal)

/-- `target[key]` on a plain object. -/
def lookupField : Fields → String → Option JsonVal
  | [], _ => none
  | (k, v) :: rest, key => if k = key then some v else lookupField rest key

/-- `result[key] = v` on a plain object: an existing key keeps its position,
a new key is appended (JavaScript property-insertion order). -/
def setField : Fields → String → JsonVal → Fields
  | [], key, v => [(key, v)]
  | (k, w) :: rest, key, v =>
    if k = key then (k, v) :: rest else (k, w) :: setField rest key v

mutual

/-- The per-key decision of `deepMerge`: the guard
`source[key] && typeof source[key] === "object" && !Array.isArray(source[key])
&& target[key] && typeof target[key] === "object" &&
!Array.isArray(target[key])` holds exactly when both values are `JsonVal.obj`
(a `null` is falsy, an array is excluded, primitives are not of object type);
then the merge recurses, otherwise the incoming value replaces. -/
def mergeVal : JsonVal → Option JsonVal → JsonVal
  | JsonVal.obj sf, some (JsonVal.obj tf) => JsonVal.obj (deepMergeGo tf tf sf)
  | v, _ => v
termination_by v _ => sizeOf v

/-- The `for key in source` loop of `deepMerge`: `result` starts as a copy of
`target`; lookups go to the original `target` (the source reads
`target[key]`, never the evolving `result`). -/
def deepMergeGo (target : Fields) : Fields → Fields → Fields
  | result, [] => result
  | result, (key, v) :: rest =>
    deepMergeGo target (setField result key (mergeVal v (lookupField target key))) rest
termination_by _ l => sizeOf l

end

/-- `deepMerge` from src/lib/utils/storage.ts. -/
def deepMerge (target source : Fields) : Fields :=
  deepMergeGo target target source

/-- `get` of `createStorage` from src/lib/utils/storage.ts.  The backing read
(`file.text()`, which throws on a missing file), the YAML parse and the zod
schema parse are parameters; every throw inside the `try` block lands in the
`catch` and yields `defaultValue`, and a blank file short-circuits to
`defaultValue` before parsing.  The function is total: it never throws.
`jsTrimBlank` is the emptiness test `!content.trim()`: the trimmed string is
empty exactly when every character is whitespace. -/
def jsTrimBlank (content : String) : Bool :=
  content.toList.all Char.isWhitespace

def storeGet {J Doc : Type} (readFile : Except Unit String)
    (yamlLoad : String → Except Unit J)
    (schemaParse : J → Except Unit Doc) (defaultValue : Doc) : Doc :=
  match readFile with
  | .error _ => defaultValue
  | .ok content =>
    if jsTrimBlank content then defaultValue
    else
      match yamlLoad content with
      | .error _ => defaultValue
      | .ok parsed =>
        match schemaParse parsed with
        | .error _ => defaultValue
        | .ok doc => doc

/-- `save` of `createStorage`: `schema.parse(data)` throws before anything is
written; only on success is the (optionally custom-serialized) YAML dump
written.  The pair is (outcome, resulting file content): on a validation
error the file content is the unchanged `fileContent`. -/
def storeSave {Doc : Type} (validate : Doc → Except Unit Doc)
    (serialize : Option (Doc → Doc)) (dump : Doc → String)
    (data : Doc) (fileContent : String) : Except Unit Unit × String :=
  match validate data with
  | .error _ => (.error (), fileContent)
  | .ok _ =>
    (.ok (), dump (match serialize with | some f => f data | none => data))

/-- `update` of `createStorage`: read the current document via `get`,
deep-merge the updates into it, persist via `save`, return the merged
document (or propagate the `save` failure, leaving the file unchanged). -/
def storeUpdate (readFile : Except Unit String)
    (yamlLoad : String → Except Unit JsonVal)
    (schemaParse : JsonVal → Except Unit Fields) (defaultValue : Fields)
    (validate : Fields → Except Unit Fields)
    (serialize : Option (Fields → Fields)) (dump : Fields → String)
    (updates : Fields) (fileContent : String) :
    Except Unit Fields × String :=
  let current := storeGet readFile yamlLoad schemaParse defaultValue
  let updated := deepMerge current updates
  match storeSave validate serialize dump updated fileContent with
  | (.ok _, c) => (.ok updated, c)
  | (.error e, c) => (.error e, c)

/-! ## State data model (src/lib/db/schema.ts) and cleanup
(src/lib/utils/cleanup.ts)

Only the fields the embedded functions read are modelled: cleanup reads
`status` and `createdAt` of goals and ideas, the goal-create branch reads
`keyResults` and appends whole goals.  Text fields not read by any claimed
function (`description`, `tags`, numeric key-result progress, …) are
omitted. -/

inductive GoalStatus
  | active | paused | completed | archived
deriving DecidableEq

inductive IdeaStatus
  | raw | organized | actionable | archived
deriving DecidableEq

structure KeyResult where
  id : String
  description : String
deriving DecidableEq

structure Objective where
  id : String
  title : String
  category : String
  keyResults : List KeyResult
  createdAt : Int
  status : GoalStatus
deriving DecidableEq

structure Idea where
  id : String
  content : String
  createdAt : Int
  status : IdeaStatus
deriving DecidableEq

/-- The `data` part of the state document. -/
structure StateData where
  goals : List Objective
  ideas : List Idea
deriving DecidableEq

/-- `CleanupOptions` from src/lib/utils/cleanup.ts; all fields optional. -/
inductive CleanupPreset
  | aggressive | conservative | custom
deriving DecidableEq

structure CleanupOptions where
  removeCompletedGoals : Option Bool := none
  removeArchivedGoals : Option Bool := none
  removePausedGoals : Option Bool := none
  goalAgeThreshold : Option Int := none
  removeCompletedIdeas : Option Bool := none
  removeArchivedIdeas : Option Bool := none
  ideaAgeThreshold : Option Int := none
  preset : Option CleanupPreset := none
deriving DecidableEq

/-- JavaScript truthiness of an optional boolean option. -/
def optTrue (o : Option Bool) : Bool := o = some true

/-- JavaScript truthiness of an optional number option (`0` is falsy). -/
def optNum (o : Option Int) : Bool :=
  match o with
  | some n => n ≠ 0
  | none => false

/-- `isOld` from src/lib/utils/cleanup.ts:
`(Date.now() - createdAt) / 86_400_000 > thresholdDays`, with `Date.now()`
passed in as `now`.  The JavaScript float division is exact real division
here, so the comparison is multiplied out. -/
def isOld (createdAt : Int) (thresholdDays : Int) (now : Int) : Bool :=
  now - createdAt > thresholdDays * 86400000

/-- `applyPreset` from src/lib/utils/cleanup.ts: `aggressive` yields the
aggressive flag set, everything else the conservative one. -/
def applyPreset (options : CleanupOptions) : CleanupOptions :=
  if options.preset = some CleanupPreset.aggressive then
    { removeCompletedGoals := some true
      removeArchivedGoals := some true
      removePausedGoals := some true
      goalAgeThreshold := some 90
      removeCompletedIdeas := some true
      removeArchivedIdeas := some true
      ideaAgeThreshold := some 180 }
  else
    { removeCompletedGoals := some true
      removeArchivedGoals := some true
      removePausedGoals := some false
      removeCompletedIdeas := some true
      removeArchivedIdeas := some true }

/-- The goal filter predicate inside `cleanupState` (keep = `true`). -/
def keepGoal (opts : CleanupOptions) (now : Int) (goal : Objective) : Bool :=
  if optTrue opts.removeCompletedGoals ∧ goal.status = GoalStatus.completed then
    false
  else if optTrue opts.removeArchivedGoals ∧ goal.status = GoalStatus.archived then
    false
  else if optTrue opts.removePausedGoals ∧ goal.status = GoalStatus.paused then
    match opts.goalAgeThreshold with
    | some t => if t ≠ 0 then !isOld goal.createdAt t now else false
    | none => false
  else if optNum opts.goalAgeThreshold ∧
      isOld goal.createdAt (opts.goalAgeThreshold.getD 0) now then
    false
  else
    true

/-- The idea filter predicate inside `cleanupState` (keep = `true`).  Note the
source checks `idea.status === "archived"` for **both** removal flags — the
latent inconsistency called out in the spec's §9. -/
def keepIdea (opts : CleanupOptions) (now : Int) (idea : Idea) : Bool :=
  if optTrue opts.removeCompletedIdeas ∧ idea.status = IdeaStatus.archived then
    false
  else if optTrue opts.removeArchivedIdeas ∧ idea.status = IdeaStatus.archived then
    false
  else if optNum opts.ideaAgeThreshold ∧
      isOld idea.createdAt (opts.ideaAgeThreshold.getD 0) now then
    false
  else
    true

structure CleanupSummary where
  backup : StateData
  goalsRemoved : Nat
  ideasRemoved : Nat
deriving DecidableEq

/-- `cleanupState` from src/lib/utils/cleanup.ts, as a pure state
transformation.  `opts` is `options.preset ? applyPreset(options) : options`
— note the preset logic is only consulted when a preset is explicitly given.
The timestamped backup file receives the YAML dump of the whole pre-cleanup
state; it is modelled by carrying that state in the summary (the wall-clock
file name and the changelog file reset are I/O outside the embedding). -/
def cleanupState (state : StateData) (options : CleanupOptions) (now : Int) :
    StateData × CleanupSummary :=
  let opts := if options.preset.isSome then applyPreset options else options
  let filteredGoals := state.goals.filter (keepGoal opts now)
  let filteredIdeas := state.ideas.filter (keepIdea opts now)
  (⟨filteredGoals, filteredIdeas⟩,
    { backup := state
      goalsRemoved := state.goals.length - filteredGoals.length
      ideasRemoved := state.ideas.length - filteredIdeas.length })

/-! ## Id generation (src/lib/utils/id.ts) and key-result id allocation
(src/tools/user/manage-goal.ts) -/

/-- Digit run to a number, as `parseInt` does on a matched digit group. -/
def digitsToNat (cs : List Char) : Nat :=
  cs.foldl (fun n c => n * 10 + (c.toNat - 48)) 0

/-- The numeric suffix extraction of `generateId`: an id matching
`prefix` followed by one or more digits (and nothing else) contributes its
number, everything else contributes 0; the caller keeps only the positive
contributions.  Strings are handled as character lists. -/
def idNumericSuffix (pre : String) (id : String) : Nat :=
  let rest := id.toList.drop pre.toList.length
  if pre.toList.isPrefixOf id.toList ∧ rest ≠ [] ∧ rest.all Char.isDigit then
    digitsToNat rest
  else 0

/-- `generateId` from src/lib/utils/id.ts: next id is
`prefix + (max positive numeric suffix + 1)`, or `prefix + 1` when no id with
a positive numeric suffix exists. -/
def generateId (pre : String) (existingIds : List String) : String :=
  let existingNumbers := (existingIds.map (idNumericSuffix pre)).filter (0 < ·)
  let nextNumber :=
    match existingNumbers with
    | [] => 1
    | ns => ns.foldl max 0 + 1
  pre ++ toString nextNumber

/-- `totalKRs` of the goal-create branch in src/tools/user/manage-goal.ts:
`state.data.goals.reduce((sum, g) => sum + g.keyResults.length, 0)`. -/
def totalKRs (goals : List Objective) : Nat :=
  goals.foldl (fun sum g => sum + g.keyResults.length) 0

/-- A requested key result in the `manage_goal` create call: the id is
optional. -/
structure KrInput where
  id : Option String := none
  description : String
deriving DecidableEq

/-- `processedKeyResults` of the goal-create branch: the id is
`kr.id || "kr" + (totalKRs + index + 1)` — a missing or empty requested id is
replaced by `"kr"` followed by (count of key results across all goals +
position + 1).  The count is fixed before the batch (`totalKRs`). -/
def processedKeyResults (goals : List Objective) (krs : List KrInput) :
    List KeyResult :=
  (List.range krs.length).zip krs |>.map fun p =>
    { id := match p.2.id with
        | some s =>
          if s = "" then "kr" ++ toString (totalKRs goals + p.1 + 1) else s
        | none => "kr" ++ toString (totalKRs goals + p.1 + 1)
      description := p.2.description }

/-- The state change of the `create` action of `manage_goal` (calendar,
reference notes and logging are external I/O): a new goal with id
`generateId("g", goals)` and the processed key results is appended. -/
def createGoal (goals : List Objective) (title category : String)
    (krs : List KrInput) (now : Int) : List Objective :=
  goals ++
    [{ id := generateId "g" (goals.map Objective.id)
       title := title
       category := category
       keyResults := processedKeyResults goals krs
       createdAt := now
       status := GoalStatus.active }]

/-- The state change of the `delete` action of `manage_goal`:
`goals.filter((g) => g.id !== goalId)`. -/
def deleteGoal (goals : List Objective) (goalId : String) : List Objective :=
  goals.filter (fun g => g.id ≠ goalId)

/-- All key-result ids across all goals, in order. -/
def allKrIds (goals : List Objective) : List String :=
  (goals.map (fun g => g.keyResults.map KeyResult.id)).flatten

/-! ## Theorems: generic document store -/

theorem lookupField_setField_self (m : Fields) (k : String) (v : JsonVal) :
    lookupField (setField m k v) k = some v := by
  induction m with
  | nil => simp [setField, lookupField]
  | cons kv rest ih =>
    obtain ⟨k', w⟩ := kv
    by_cases h : k' = k <;> simp [setField, lookupField, h, ih]

theorem lookupField_setField_ne (m : Fields) (k k' : String) (v : JsonVal)
    (h : k' ≠ k) : lookupField (setField m k v) k' = lookupField m k' := by
  have h' : ¬(k = k') := fun hk => h hk.symm
  induction m with
  | nil => simp [setField, lookupField, h']
  | cons kv rest ih =>
    obtain ⟨k0, w⟩ := kv
    by_cases h0 : k0 = k
    · subst h0
      simp [setField, lookupField, h']
    · by_cases h1 : k0 = k' <;> simp [setField, lookupField, h0, h1, h, h', ih]

theorem deepMergeGo_lookup_not_mem (target : Fields) (k : String) :
    ∀ (sf : Fields) (acc : Fields), k ∉ sf.map Prod.fst →
      lookupField (deepMergeGo target acc sf) k = lookupField acc k := by
  intro sf
  induction sf with
  | nil => intro acc _; simp [deepMergeGo]
  | cons kv rest ih =>
    intro acc hk
    obtain ⟨key, v⟩ := kv
    simp only [List.map_cons, List.mem_cons] at hk
    push_neg at hk
    rw [deepMergeGo, ih _ hk.2, lookupField_setField_ne _ _ _ _ hk.1]

theorem deepMergeGo_lookup (target : Fields) (k : String) :
    ∀ (sf : Fields) (acc : Fields), (sf.map Prod.fst).Nodup →
      lookupField (deepMergeGo target acc sf) k =
        match lookupField sf k with
        | none => lookupField acc k
        | some v => some (mergeVal v (lookupField target k)) := by
  intro sf
  induction sf with
  | nil => intro acc _; simp [deepMergeGo, lookupField]
  | cons kv rest ih =>
    intro acc hnd
    obtain ⟨key, v⟩ := kv
    simp only [List.map_cons, List.nodup_cons] at hnd
    by_cases hk : key = k
    · subst hk
      rw [deepMergeGo, deepMergeGo_lookup_not_mem _ _ _ _ hnd.1,
        lookupField_setField_self]
      simp [lookupField]
    · have hk' : ¬(key = k) := hk
      rw [deepMergeGo, ih _ hnd.2]
      have hacc : lookupField (setField acc key (mergeVal v (lookupField target key))) k
          = lookupField acc k :=
        lookupField_setField_ne _ _ _ _ (fun h => hk h.symm)
      rw [hacc]
      simp only [lookupField, if_neg hk']

/-- The per-key behaviour of `deepMerge` in terms of `deepMerge` itself:
recursion happens exactly when both sides hold a plain (non-null, non-array)
object, otherwise the incoming value replaces the existing one wholesale. -/
theorem deepMerge_lookup (tf sf : Fields) (k : String)
    (hnd : (sf.map Prod.fst).Nodup) :
    lookupField (deepMerge tf sf) k =
      match lookupField sf k with
      | none => lookupField tf k
      | some v =>
        some (match v, lookupField tf k with
          | JsonVal.obj svs, some (JsonVal.obj tvs) => JsonVal.obj (deepMerge tvs svs)
          | _, _ => v) := by
  rw [deepMerge, deepMergeGo_lookup tf k sf tf hnd]
  rcases hsf : lookupField sf k with _ | v
  · rfl
  · rcases v with s | n | b | _ | items | fs <;>
      rcases htf : lookupField tf k with _ | tv <;>
      first
        | (rcases tv with s' | n' | b' | _ | items' | fs' <;>
            simp [mergeVal, deepMerge])
        | simp [mergeVal]

/-- C4: for every backing-file content, the document store's `get` never
throws (it is a total function of the outcome of the read, the YAML parse
and the schema parse): a failed read returns the configured default, a
whitespace-only (hence also empty) content returns the default, a failed
YAML parse returns the default, and a successful parse that fails schema
validation also silently returns the default. -/
theorem storeGet_total_default_fallback {J Doc : Type}
    (yamlLoad : String → Except Unit J) (schemaParse : J → Except Unit Doc)
    (defaultValue : Doc) (content : String) (j : J) :
    (storeGet (Except.error ()) yamlLoad schemaParse defaultValue = defaultValue)
    ∧ (jsTrimBlank content = true →
        storeGet (Except.ok content) yamlLoad schemaParse defaultValue = defaultValue)
    ∧ (yamlLoad content = Except.error () →
        storeGet (Except.ok content) yamlLoad schemaParse defaultValue = defaultValue)
    ∧ (yamlLoad content = Except.ok j → schemaParse j = Except.error () →
        storeGet (Except.ok content) yamlLoad schemaParse defaultValue = defaultValue) := by
  refine ⟨rfl, ?_, ?_, ?_⟩
  · intro hblank
    simp [storeGet, hblank]
  · intro hyaml
    by_cases hb : jsTrimBlank content <;> simp [storeGet, hb, hyaml]
  · intro hyaml hschema
    by_cases hb : jsTrimBlank content <;> simp [storeGet, hb, hyaml, hschema]

theorem storeGet_total_default_fallback_witness :
    (storeGet (Except.error ())
        (fun s => if s = "bad" then Except.error () else Except.ok (if s = "seven" then 7 else 1))
        (fun n : Nat => if n = 7 then Except.error () else Except.ok n) 42 = 42)
    ∧ (storeGet (Except.ok " \t ")
        (fun s => if s = "bad" then Except.error () else Except.ok (if s = "seven" then 7 else 1))
        (fun n : Nat => if n = 7 then Except.error () else Except.ok n) 42 = 42)
    ∧ (storeGet (Except.ok "bad")
        (fun s => if s = "bad" then Except.error () else Except.ok (if s = "seven" then 7 else 1))
        (fun n : Nat => if n = 7 then Except.error () else Except.ok n) 42 = 42)
    ∧ (storeGet (Except.ok "seven")
        (fun s => if s = "bad" then Except.error () else Except.ok (if s = "seven" then 7 else 1))
        (fun n : Nat => if n = 7 then Except.error () else Except.ok n) 42 = 42) := by
  have h1 := storeGet_total_default_fallback
    (fun s => if s = "bad" then Except.error () else Except.ok (if s = "seven" then 7 else 1))
    (fun n : Nat => if n = 7 then Except.error () else Except.ok n) 42 " \t " 7
  have h2 := storeGet_total_default_fallback
    (fun s => if s = "bad" then Except.error () else Except.ok (if s = "seven" then 7 else 1))
    (fun n : Nat => if n = 7 then Except.error () else Except.ok n) 42 "bad" 7
  have h3 := storeGet_total_default_fallback
    (fun s => if s = "bad" then Except.error () else Except.ok (if s = "seven" then 7 else 1))
    (fun n : Nat => if n = 7 then Except.error () else Except.ok n) 42 "seven" 7
  exact ⟨h1.1, h1.2.1 (by decide), h2.2.2.1 rfl, h3.2.2.2 rfl rfl⟩

/-- C5: `save` validates the document against the schema before any write:
on a validation failure it throws and the backing file's content is left
exactly as it was, and only on success is the (optionally custom-serialized)
YAML dump written. -/
theorem storeSave_validates_before_write {Doc : Type}
    (validate : Doc → Except Unit Doc) (serialize : Option (Doc → Doc))
    (dump : Doc → String) (data d : Doc) (fileContent : String) :
    (validate data = Except.error () →
      storeSave validate serialize dump data fileContent = (Except.error (), fileContent))
    ∧ (validate data = Except.ok d →
      storeSave validate serialize dump data fileContent =
        (Except.ok (), dump (match serialize with | some f => f data | none => data))) := by
  constructor
  · intro herr
    simp [storeSave, herr]
  · intro hok
    simp [storeSave, hok]

theorem storeSave_validates_before_write_witness :
    (storeSave (fun n : Nat => if n = 0 then Except.error () else Except.ok n)
        none (fun n => toString n) 0 "old" = (Except.error (), "old"))
    ∧ (storeSave (fun n : Nat => if n = 0 then Except.error () else Except.ok n)
        none (fun n => toString n) 5 "old" = (Except.ok (), "5")) := by
  have h0 := storeSave_validates_before_write
    (fun n : Nat => if n = 0 then Except.error () else Except.ok n)
    none (fun n => toString n) 0 0 "old"
  have h5 := storeSave_validates_before_write
    (fun n : Nat => if n = 0 then Except.error () else Except.ok n)
    none (fun n => toString n) 5 5 "old"
  exact ⟨h0.1 rfl, h5.2 rfl⟩

/-- C6: `update` reads the current document via `get`, deep-merges the
partial update into it, persists the merged document via `save` and returns
it; and the deep merge recurses on a key exactly when both the existing and
the incoming value are plain non-array objects, otherwise (arrays,
primitives, null, mismatched shapes, missing target key) the incoming value
fully replaces the existing one. -/
theorem storeUpdate_deep_merge (readFile : Except Unit String)
    (yamlLoad : String → Except Unit JsonVal)
    (schemaParse : JsonVal → Except Unit Fields) (defaultValue : Fields)
    (validate : Fields → Except Unit Fields)
    (serialize : Option (Fields → Fields)) (dump : Fields → String)
    (updates : Fields) (fileContent : String) (d : Fields)
    (tf sf : Fields) (k : String)
    (hv : validate (deepMerge (storeGet readFile yamlLoad schemaParse defaultValue) updates)
        = Except.ok d)
    (hnd : (sf.map Prod.fst).Nodup) :
    (storeUpdate readFile yamlLoad schemaParse defaultValue validate serialize dump
        updates fileContent =
      (Except.ok (deepMerge (storeGet readFile yamlLoad schemaParse defaultValue) updates),
        dump (match serialize with
          | some f => f (deepMerge (storeGet readFile yamlLoad schemaParse defaultValue) updates)
          | none => deepMerge (storeGet readFile yamlLoad schemaParse defaultValue) updates)))
    ∧ lookupField (deepMerge tf sf) k =
        (match lookupField sf k with
        | none => lookupField tf k
        | some v =>
          some (match v, lookupField tf k with
            | JsonVal.obj svs, some (JsonVal.obj tvs) => JsonVal.obj (deepMerge tvs svs)
            | _, _ => v)) := by
  refine ⟨?_, deepMerge_lookup tf sf k hnd⟩
  rcases serialize with _ | f <;> simp [storeUpdate, storeSave, hv]

theorem storeUpdate_deep_merge_witness :
    (storeUpdate (Except.ok "") (fun _ => Except.ok JsonVal.null)
        (fun _ => Except.ok ([] : Fields)) [("a", JsonVal.num 1)]
        Except.ok none (fun _ => "out") [("b", JsonVal.num 2)] "old" =
      (Except.ok (deepMerge (storeGet (Except.ok "") (fun _ => Except.ok JsonVal.null)
          (fun _ => Except.ok ([] : Fields)) [("a", JsonVal.num 1)]) [("b", JsonVal.num 2)]),
        (fun _ => "out") (match (none : Option (Fields → Fields)) with
          | some f => f (deepMerge (storeGet (Except.ok "") (fun _ => Except.ok JsonVal.null)
              (fun _ => Except.ok ([] : Fields)) [("a", JsonVal.num 1)]) [("b", JsonVal.num 2)])
          | none => deepMerge (storeGet (Except.ok "") (fun _ => Except.ok JsonVal.null)
              (fun _ => Except.ok ([] : Fields)) [("a", JsonVal.num 1)]) [("b", JsonVal.num 2)])))
    ∧ lookupField (deepMerge [("x", JsonVal.obj [("y", JsonVal.num 1)])]
        [("x", JsonVal.obj [("y", JsonVal.num 2)])]) "x" =
      (match lookupField [("x", JsonVal.obj [("y", JsonVal.num 2)])] "x" with
        | none => lookupField [("x", JsonVal.obj [("y", JsonVal.num 1)])] "x"
        | some v =>
          some (match v, lookupField [("x", JsonVal.obj [("y", JsonVal.num 1)])] "x" with
            | JsonVal.obj svs, some (JsonVal.obj tvs) => JsonVal.obj (deepMerge tvs svs)
            | _, _ => v)) :=
  storeUpdate_deep_merge (Except.ok "") (fun _ => Except.ok JsonVal.null)
    (fun _ => Except.ok ([] : Fields)) [("a", JsonVal.num 1)] Except.ok none
    (fun _ => "out") [("b", JsonVal.num 2)] "old"
    (deepMerge (storeGet (Except.ok "") (fun _ => Except.ok JsonVal.null)
        (fun _ => Except.ok ([] : Fields)) [("a", JsonVal.num 1)]) [("b", JsonVal.num 2)])
    [("x", JsonVal.obj [("y", JsonVal.num 1)])] [("x", JsonVal.obj [("y", JsonVal.num 2)])]
    "x" rfl (by decide)

/-! ## Theorems: cleanup and id allocation -/

/-- C7 counterexample: on a state with exactly one completed, one archived
and one active goal, `cleanupState` called with an empty options object
removes no goal at all — the conservative flag set is applied only when a
preset is explicitly passed (`options.preset ? applyPreset(options) :
options`), and an empty options object has every removal flag unset.  The
claimed removal of the 2 completed/archived goals does not happen. -/
theorem cleanupState_empty_options_removes_nothing :
    (cleanupState ⟨[⟨"g1", "t1", "c", [], 0, GoalStatus.completed⟩,
        ⟨"g2", "t2", "c", [], 0, GoalStatus.archived⟩,
        ⟨"g3", "t3", "c", [], 0, GoalStatus.active⟩], []⟩ {} 0).2.goalsRemoved ≠ 2
    ∧ (cleanupState ⟨[⟨"g1", "t1", "c", [], 0, GoalStatus.completed⟩,
        ⟨"g2", "t2", "c", [], 0, GoalStatus.archived⟩,
        ⟨"g3", "t3", "c", [], 0, GoalStatus.active⟩], []⟩ {} 0).2.goalsRemoved = 0
    ∧ (cleanupState ⟨[⟨"g1", "t1", "c", [], 0, GoalStatus.completed⟩,
        ⟨"g2", "t2", "c", [], 0, GoalStatus.archived⟩,
        ⟨"g3", "t3", "c", [], 0, GoalStatus.active⟩], []⟩ {} 0).1.goals.length = 3 := by
  decide

/-- C7 (amended): given a state containing exactly 3 goals with statuses
completed, archived and active, calling `cleanupState` with the conservative
preset explicitly requested (`{preset: "conservative"}`) removes exactly the
completed and the archived goal (2 goals), records a backup of the full
original state (all 3 goals) before filtering, and leaves the active goal
untouched; with an empty options object nothing is removed (see the
counterexample). -/
theorem cleanupState_conservative_scenario (g1 g2 g3 : Objective)
    (ideas : List Idea) (now : Int)
    (h1 : g1.status = GoalStatus.completed) (h2 : g2.status = GoalStatus.archived)
    (h3 : g3.status = GoalStatus.active) :
    (cleanupState ⟨[g1, g2, g3], ideas⟩
        { preset := some CleanupPreset.conservative } now).2.goalsRemoved = 2
    ∧ (cleanupState ⟨[g1, g2, g3], ideas⟩
        { preset := some CleanupPreset.conservative } now).1.goals = [g3]
    ∧ (cleanupState ⟨[g1, g2, g3], ideas⟩
        { preset := some CleanupPreset.conservative } now).2.backup
        = ⟨[g1, g2, g3], ideas⟩ := by
  refine ⟨?_, ?_, rfl⟩ <;>
    simp [cleanupState, applyPreset, keepGoal, optTrue, optNum, h1, h2, h3]

theorem cleanupState_conservative_scenario_witness :
    (cleanupState ⟨[⟨"g1", "t1", "c", [], 0, GoalStatus.completed⟩,
        ⟨"g2", "t2", "c", [], 0, GoalStatus.archived⟩,
        ⟨"g3", "t3", "c", [], 0, GoalStatus.active⟩], []⟩
        { preset := some CleanupPreset.conservative } 0).2.goalsRemoved = 2
    ∧ (cleanupState ⟨[⟨"g1", "t1", "c", [], 0, GoalStatus.completed⟩,
        ⟨"g2", "t2", "c", [], 0, GoalStatus.archived⟩,
        ⟨"g3", "t3", "c", [], 0, GoalStatus.active⟩], []⟩
        { preset := some CleanupPreset.conservative } 0).1.goals
        = [⟨"g3", "t3", "c", [], 0, GoalStatus.active⟩]
    ∧ (cleanupState ⟨[⟨"g1", "t1", "c", [], 0, GoalStatus.completed⟩,
        ⟨"g2", "t2", "c", [], 0, GoalStatus.archived⟩,
        ⟨"g3", "t3", "c", [], 0, GoalStatus.active⟩], []⟩
        { preset := some CleanupPreset.conservative } 0).2.backup
        = ⟨[⟨"g1", "t1", "c", [], 0, GoalStatus.completed⟩,
        ⟨"g2", "t2", "c", [], 0, GoalStatus.archived⟩,
        ⟨"g3", "t3", "c", [], 0, GoalStatus.active⟩], []⟩ :=
  cleanupState_conservative_scenario
    ⟨"g1", "t1", "c", [], 0, GoalStatus.completed⟩
    ⟨"g2", "t2", "c", [], 0, GoalStatus.archived⟩
    ⟨"g3", "t3", "c", [], 0, GoalStatus.active⟩ [] 0 rfl rfl rfl

/-- C8 counterexample: key-result ids are allocated from a count of the
key results currently present, not from the maximum existing id, so they are
reused after deletions.  The operation sequence — create a goal with 2 key
results (ids kr1, kr2), create a goal with 1 key result (id kr3), delete the
first goal, create a goal with 2 key results — assigns ids kr2 and kr3 to
the last goal, and kr3 collides with the surviving goal's key result: the
key-result ids are no longer unique across all goals. -/
theorem keyResult_ids_reused_after_deletion :
    ¬ (allKrIds
        (createGoal
          (deleteGoal
            (createGoal
              (createGoal [] "A" "c" [⟨none, "a1"⟩, ⟨none, "a2"⟩] 0)
              "B" "c" [⟨none, "b1"⟩] 0)
            "g1")
          "C" "c" [⟨none, "c1"⟩, ⟨none, "c2"⟩] 0)).Nodup := by
  decide

/-- C8 (amended): a newly assigned key-result id (requested id missing or
empty) is `"kr"` followed by (total count of key results across all goals
before the create + position in the batch + 1) — a global count-based
counter spanning all goals, not a max-based one; in particular creating a
goal with 2 key results and then a second goal with 1 key result yields ids
kr1, kr2 on goal 1 and kr3 on goal 2.  (Uniqueness after arbitrary
deletions does not hold; see the counterexample.) -/
theorem keyResult_ids_count_based (goals : List Objective)
    (krs : List KrInput) (i : Nat) (hi : i < krs.length)
    (hi2 : i < (processedKeyResults goals krs).length)
    (hin : (krs.get ⟨i, hi⟩).id = none ∨ (krs.get ⟨i, hi⟩).id = some "") :
    (((processedKeyResults goals krs).get ⟨i, hi2⟩).id
        = "kr" ++ toString (totalKRs goals + i + 1))
    ∧ allKrIds
        (createGoal (createGoal [] "A" "c" [⟨none, "a1"⟩, ⟨none, "a2"⟩] 0)
          "B" "c" [⟨none, "b1"⟩] 0) = ["kr1", "kr2", "kr3"] := by
  constructor
  · simp only [processedKeyResults, List.get_eq_getElem, List.getElem_map,
      List.getElem_zip, List.getElem_range]
    rcases hin with h | h <;> simp_all
  · decide

theorem keyResult_ids_count_based_witness :
    ((((processedKeyResults [] [⟨none, "a1"⟩, ⟨none, "a2"⟩]).get
        ⟨1, by decide⟩).id = "kr" ++ toString (totalKRs ([] : List Objective) + 1 + 1))
    ∧ allKrIds
        (createGoal (createGoal [] "A" "c" [⟨none, "a1"⟩, ⟨none, "a2"⟩] 0)
          "B" "c" [⟨none, "b1"⟩] 0) = ["kr1", "kr2", "kr3"]) :=
  keyResult_ids_count_based [] [⟨none, "a1"⟩, ⟨none, "a2"⟩] 1 (by decide)
    (by decide) (Or.inl rfl)

/-! ## Theorems: element merging and id regeneration -/

theorem foldl_append_length_le :
    ∀ (l : List String) (s : String), s.length ≤ (l.foldl (· ++ ·) s).length := by
  intro l
  induction l with
  | nil => intro s; exact le_refl _
  | cons a l ih =>
    intro s
    calc s.length ≤ (s ++ a).length := by simp [String.length_append]
    _ ≤ _ := ih (s ++ a)

theorem mem_length_le_foldl {u : String} :
    ∀ (l : List String) (s : String), u ∈ l →
      u.length ≤ (l.foldl (· ++ ·) s).length := by
  intro l
  induction l with
  | nil => intro s hmem; cases hmem
  | cons a l ih =>
    intro s hmem
    rcases List.mem_cons.mp hmem with rfl | hmem
    · calc u.length ≤ (s ++ u).length := by simp [String.length_append]
      _ ≤ _ := foldl_append_length_le l (s ++ u)
    · exact ih (s ++ a) hmem

/-- The deterministic generator is fresh: the property `generateElementId`'s
retry loop guarantees. -/
theorem concatFresh_not_mem (used : List String) : concatFresh used ∉ used := by
  intro hmem
  have hle := mem_length_le_foldl (u := concatFresh used) used "" hmem
  have hx : ("x" : String).length = 1 := rfl
  have : (concatFresh used).length = (used.foldl (· ++ ·) "").length + 1 := by
    simp [concatFresh, String.length_append, hx]
  omega

theorem ensureUniqueIdsGo_length (gen : List String → String) :
    ∀ (l : List Element) (used : List String),
      (ensureUniqueIdsGo gen used l).length = l.length := by
  intro l
  induction l with
  | nil => intro used; rfl
  | cons e rest ih =>
    intro used
    by_cases h : e.id ∈ used <;> simp [ensureUniqueIdsGo, h, ih]

theorem ensureUniqueIdsGo_fresh_nodup (gen : List String → String)
    (hg : ∀ u, gen u ∉ u) :
    ∀ (l : List Element) (used : List String),
      (∀ x ∈ elementIds (ensureUniqueIdsGo gen used l), x ∉ used)
      ∧ (elementIds (ensureUniqueIdsGo gen used l)).Nodup := by
  intro l
  induction l with
  | nil =>
    intro used
    constructor
    · intro x hx
      simp [ensureUniqueIdsGo, elementIds] at hx
    · simp [ensureUniqueIdsGo, elementIds]
  | cons e rest ih =>
    intro used
    by_cases h : e.id ∈ used
    · obtain ⟨ihA, ihB⟩ := ih (gen used :: used)
      constructor
      · intro x hx
        simp only [ensureUniqueIdsGo, if_pos h, elementIds, List.map_cons,
          List.mem_cons] at hx
        rcases hx with rfl | hx
        · exact hg used
        · intro hxused
          exact ihA x hx (List.mem_cons_of_mem _ hxused)
      · simp only [ensureUniqueIdsGo, if_pos h, elementIds, List.map_cons,
          List.nodup_cons]
        exact ⟨fun hmem => ihA _ hmem (List.mem_cons_self _ _), ihB⟩
    · obtain ⟨ihA, ihB⟩ := ih (e.id :: used)
      constructor
      · intro x hx
        simp only [ensureUniqueIdsGo, if_neg h, elementIds, List.map_cons,
          List.mem_cons] at hx
        rcases hx with rfl | hx
        · exact h
        · intro hxused
          exact ihA x hx (List.mem_cons_of_mem _ hxused)
      · simp only [ensureUniqueIdsGo, if_neg h, elementIds, List.map_cons,
          List.nodup_cons]
        exact ⟨fun hmem => ihA _ hmem (List.mem_cons_self _ _), ihB⟩

theorem ensureUniqueIdsGo_get_spec (gen : List String → String)
    (hg : ∀ u, gen u ∉ u) :
    ∀ (l : List Element) (used : List String) (i : Nat) (ei oi : Element),
      l[i]? = some ei → (ensureUniqueIdsGo gen used l)[i]? = some oi →
      (oi.id ∉ used ++ elementIds ((ensureUniqueIdsGo gen used l).take i))
      ∧ (oi.id = ei.id ↔
          ei.id ∉ used ++ elementIds ((ensureUniqueIdsGo gen used l).take i)) := by
  intro l
  induction l with
  | nil =>
    intro used i ei oi hei
    simp at hei
  | cons e rest ih =>
    intro used i ei oi hei hoi
    by_cases h : e.id ∈ used
    · have hout : ensureUniqueIdsGo gen used (e :: rest)
          = { e with id := gen used } :: ensureUniqueIdsGo gen (gen used :: used) rest := by
        simp [ensureUniqueIdsGo, h]
      rw [hout] at hoi ⊢
      cases i with
      | zero =>
        simp only [List.getElem?_cons_zero, Option.some.injEq] at hei hoi
        subst hei
        subst hoi
        simp only [List.take_zero, elementIds, List.map_nil, List.append_nil]
        constructor
        · exact hg used
        · constructor
          · intro heq
            have hfresh := hg used
            have heq' : gen used = e.id := heq
            rw [heq'] at hfresh
            exact absurd h hfresh
          · intro hmem
            exact absurd h hmem
      | succ j =>
        simp only [List.getElem?_cons_succ] at hei hoi
        obtain ⟨iA, iB⟩ := ih (gen used :: used) j ei oi hei hoi
        simp only [List.take_succ_cons, elementIds, List.map_cons,
          List.mem_append, List.mem_cons] at iA iB ⊢
        constructor
        · tauto
        · rw [iB]
          tauto
    · have hout : ensureUniqueIdsGo gen used (e :: rest)
          = e :: ensureUniqueIdsGo gen (e.id :: used) rest := by
        simp [ensureUniqueIdsGo, h]
      rw [hout] at hoi ⊢
      cases i with
      | zero =>
        simp only [List.getElem?_cons_zero, Option.some.injEq] at hei hoi
        subst hei
        subst hoi
        simp only [List.take_zero, elementIds, List.map_nil, List.append_nil]
        exact ⟨h, by simp [h]⟩
      | succ j =>
        simp only [List.getElem?_cons_succ] at hei hoi
        obtain ⟨iA, iB⟩ := ih (e.id :: used) j ei oi hei hoi
        simp only [List.take_succ_cons, elementIds, List.map_cons,
          List.mem_append, List.mem_cons] at iA iB ⊢
        constructor
        · tauto
        · rw [iB]
          tauto

theorem mergeElements_true_nodup (gen : List String → String)
    (hg : ∀ u, gen u ∉ u) (existing new : List Element)
    (h : (elementIds existing).Nodup) :
    (elementIds (existing ++ ensureUniqueIds gen new (elementIds existing))).Nodup := by
  have hfn := ensureUniqueIdsGo_fresh_nodup gen hg new (elementIds existing)
  have hsplit : elementIds (existing ++ ensureUniqueIds gen new (elementIds existing))
      = elementIds existing ++ elementIds (ensureUniqueIds gen new (elementIds existing)) := by
    simp [elementIds]
  rw [hsplit, List.nodup_append]
  exact ⟨h, hfn.2, fun a ha hb => hfn.1 a hb ha⟩

theorem mergeElements_fold_nodup (gen : List String → String)
    (hg : ∀ u, gen u ∉ u) :
    ∀ (batches : List (List Element)) (existing : List Element),
      (elementIds existing).Nodup →
      (elementIds (batches.foldl
        (fun acc b => (mergeElements gen acc b true).toOption.getD acc) existing)).Nodup := by
  intro batches
  induction batches with
  | nil => intro ex h; exact h
  | cons b bs ih =>
    intro ex h
    simp only [List.foldl_cons]
    apply ih
    have hstep : (mergeElements gen ex b true).toOption.getD ex
        = ex ++ ensureUniqueIds gen b (elementIds ex) := rfl
    rw [hstep]
    exact mergeElements_true_nodup gen hg ex b h

theorem mergeNoRegenGo_ok :
    ∀ (l : List Element) (used : List String) (res : List Element),
      mergeNoRegenGo used l = .ok res → res = l := by
  intro l
  induction l with
  | nil =>
    intro used res h
    simp only [mergeNoRegenGo, Except.ok.injEq] at h
    exact h.symm
  | cons e rest ih =>
    intro used res h
    by_cases hm : e.id ∈ used
    · simp [mergeNoRegenGo, hm] at h
    · simp only [mergeNoRegenGo, if_neg hm] at h
      cases hrec : mergeNoRegenGo (e.id :: used) rest with
      | error err => rw [hrec] at h; simp [Except.map] at h
      | ok res' =>
        rw [hrec] at h
        simp only [Except.map, Except.ok.injEq] at h
        rw [← h, ih _ _ hrec]

theorem mergeNoRegenGo_error_of_mem :
    ∀ (l : List Element) (used : List String), (∃ e ∈ l, e.id ∈ used) →
      ∃ cid, mergeNoRegenGo used l = .error ("Element ID conflict: " ++ cid) := by
  intro l
  induction l with
  | nil =>
    intro used hex
    obtain ⟨e, he, _⟩ := hex
    cases he
  | cons e rest ih =>
    intro used hex
    by_cases hm : e.id ∈ used
    · exact ⟨e.id, by simp [mergeNoRegenGo, hm]⟩
    · obtain ⟨e', he', hid⟩ := hex
      rcases List.mem_cons.mp he' with rfl | he'
      · exact absurd hid hm
      · obtain ⟨cid, hcid⟩ := ih (e.id :: used) ⟨e', he', List.mem_cons_of_mem _ hid⟩
        exact ⟨cid, by simp [mergeNoRegenGo, hm, hcid, Except.map]⟩

theorem mergeNoRegenGo_error_of_dup :
    ∀ (l : List Element) (used : List String), ¬ (elementIds l).Nodup →
      ∃ cid, mergeNoRegenGo used l = .error ("Element ID conflict: " ++ cid) := by
  intro l
  induction l with
  | nil =>
    intro used h
    exact absurd (by simp [elementIds]) h
  | cons e rest ih =>
    intro used h
    by_cases hm : e.id ∈ used
    · exact ⟨e.id, by simp [mergeNoRegenGo, hm]⟩
    · simp only [elementIds, List.map_cons, List.nodup_cons] at h
      rcases not_and_or.mp h with h1 | h2
      · rw [not_not] at h1
        obtain ⟨e', he', hid⟩ := List.mem_map.mp h1
        have hex : ∃ x ∈ rest, x.id ∈ e.id :: used :=
          ⟨e', he', by simp [hid]⟩
        obtain ⟨cid, hcid⟩ := mergeNoRegenGo_error_of_mem rest (e.id :: used) hex
        exact ⟨cid, by simp [mergeNoRegenGo, hm, hcid, Except.map]⟩
      · obtain ⟨cid, hcid⟩ := ih (e.id :: used) h2
        exact ⟨cid, by simp [mergeNoRegenGo, hm, hcid, Except.map]⟩

/-- C1: with `regenerateIds = true` (the default) and a fresh id generator,
any sequence of `mergeElements` calls starting from an element list with
distinct ids yields an element list with distinct ids; a single call returns
exactly `existing ++ ensureUniqueIds new`, keeping one output element per
input element, and an output element keeps its original id exactly when that
id collides neither with an existing id nor with the id of any
earlier-processed element of the same batch (otherwise it receives a fresh
id outside both). -/
theorem mergeElements_regenerate_unique_ids (gen : List String → String)
    (hg : ∀ u, gen u ∉ u) (existing : List Element)
    (hnd : (elementIds existing).Nodup) (batches : List (List Element))
    (new : List Element) (i : Nat) (ei oi : Element)
    (hei : new[i]? = some ei)
    (hoi : (ensureUniqueIds gen new (elementIds existing))[i]? = some oi) :
    (elementIds (batches.foldl
        (fun acc b => (mergeElements gen acc b true).toOption.getD acc) existing)).Nodup
    ∧ mergeElements gen existing new true
        = .ok (existing ++ ensureUniqueIds gen new (elementIds existing))
    ∧ (ensureUniqueIds gen new (elementIds existing)).length = new.length
    ∧ oi.id ∉ elementIds existing
        ++ elementIds ((ensureUniqueIds gen new (elementIds existing)).take i)
    ∧ (oi.id = ei.id ↔ ei.id ∉ elementIds existing
        ++ elementIds ((ensureUniqueIds gen new (elementIds existing)).take i)) := by
  obtain ⟨hA, hB⟩ := ensureUniqueIdsGo_get_spec gen hg new (elementIds existing) i ei oi hei hoi
  exact ⟨mergeElements_fold_nodup gen hg batches existing hnd, rfl,
    ensureUniqueIdsGo_length gen new (elementIds existing), hA, hB⟩

theorem mergeElements_regenerate_unique_ids_witness :
    ((elementIds ([[sampleRect "a"]].foldl
        (fun acc b => (mergeElements concatFresh acc b true).toOption.getD acc)
        [sampleRect "a"])).Nodup
    ∧ mergeElements concatFresh [sampleRect "a"] [sampleRect "a", sampleRect "b"] true
        = .ok ([sampleRect "a"] ++
            ensureUniqueIds concatFresh [sampleRect "a", sampleRect "b"]
              (elementIds [sampleRect "a"]))
    ∧ (ensureUniqueIds concatFresh [sampleRect "a", sampleRect "b"]
        (elementIds [sampleRect "a"])).length = 2
    ∧ (sampleRect "ax").id ∉ elementIds [sampleRect "a"]
        ++ elementIds ((ensureUniqueIds concatFresh [sampleRect "a", sampleRect "b"]
            (elementIds [sampleRect "a"])).take 0)
    ∧ ((sampleRect "ax").id = (sampleRect "a").id ↔
        (sampleRect "a").id ∉ elementIds [sampleRect "a"]
          ++ elementIds ((ensureUniqueIds concatFresh [sampleRect "a", sampleRect "b"]
              (elementIds [sampleRect "a"])).take 0))) :=
  mergeElements_regenerate_unique_ids concatFresh concatFresh_not_mem
    [sampleRect "a"] (by decide) [[sampleRect "a"]]
    [sampleRect "a", sampleRect "b"] 0 (sampleRect "a") (sampleRect "ax")
    (by decide) (by decide)

/-- C2: with `regenerateIds = false`, whenever some new element's id already
occurs among the ids of the existing elements, `mergeElements` throws an
error of the form `Element ID conflict: <id>`; and no silent renaming ever
happens in this mode — whenever the call succeeds, the result is exactly
`existing ++ new` with every id untouched. -/
theorem mergeElements_no_regenerate_conflict (gen : List String → String)
    (existing new existing2 new2 l2 : List Element)
    (h : ∃ e ∈ new, e.id ∈ elementIds existing) :
    (∃ cid, mergeElements gen existing new false
        = .error ("Element ID conflict: " ++ cid))
    ∧ (mergeElements gen existing2 new2 false = .ok l2 → l2 = existing2 ++ new2) := by
  constructor
  · obtain ⟨cid, hcid⟩ := mergeNoRegenGo_error_of_mem new (elementIds existing) h
    exact ⟨cid, by simp [mergeElements, hcid, Except.map]⟩
  · intro hok
    cases hrec : mergeNoRegenGo (elementIds existing2) new2 with
    | error err =>
      rw [show mergeElements gen existing2 new2 false
          = (mergeNoRegenGo (elementIds existing2) new2).map (existing2 ++ ·) from rfl,
        hrec] at hok
      simp [Except.map] at hok
    | ok res =>
      rw [show mergeElements gen existing2 new2 false
          = (mergeNoRegenGo (elementIds existing2) new2).map (existing2 ++ ·) from rfl,
        hrec] at hok
      simp only [Except.map, Except.ok.injEq] at hok
      rw [← hok, mergeNoRegenGo_ok new2 _ _ hrec]

theorem mergeElements_no_regenerate_conflict_witness :
    ((∃ cid, mergeElements concatFresh [sampleRect "a"] [sampleRect "a"] false
        = .error ("Element ID conflict: " ++ cid))
    ∧ (mergeElements concatFresh [sampleRect "a"] [sampleRect "b"] false
        = .ok [sampleRect "a", sampleRect "b"] →
        [sampleRect "a", sampleRect "b"] = [sampleRect "a"] ++ [sampleRect "b"])) :=
  mergeElements_no_regenerate_conflict concatFresh [sampleRect "a"] [sampleRect "a"]
    [sampleRect "a"] [sampleRect "b"] [sampleRect "a", sampleRect "b"]
    (by decide)

/-- C10: with `regenerateIds = false`, a duplicate id occurring twice within
the new-elements batch itself also raises the `Element ID conflict: <id>`
error, even when every new id is absent from the existing list — each
accepted new id joins the exclusion set before the next new element is
checked. -/
theorem mergeElements_intra_batch_conflict (gen : List String → String)
    (existing new : List Element)
    (hdup : ¬ (elementIds new).Nodup)
    (hdisjoint : ∀ e ∈ new, e.id ∉ elementIds existing) :
    ∃ cid, mergeElements gen existing new false
        = .error ("Element ID conflict: " ++ cid) := by
  obtain ⟨cid, hcid⟩ := mergeNoRegenGo_error_of_dup new (elementIds existing) hdup
  exact ⟨cid, by simp [mergeElements, hcid, Except.map]⟩

theorem mergeElements_intra_batch_conflict_witness :
    ∃ cid, mergeElements concatFresh [sampleRect "c"]
        [sampleRect "a", sampleRect "a"] false
        = .error ("Element ID conflict: " ++ cid) :=
  mergeElements_intra_batch_conflict concatFresh [sampleRect "c"]
    [sampleRect "a", sampleRect "a"] (by decide) (by decide)

/-! ## Theorems: compression against design-system defaults -/

theorem compress_angle (e : Element) :
    (compressElement e).angle = if e.angle = some 0 then none else e.angle := by
  rcases he : e.angle with _ | a
  · simp [compressElement, he]
  · by_cases h0 : a = 0 <;> simp [compressElement, he, h0]

theorem compress_strokeColor (e : Element) :
    (compressElement e).strokeColor
      = if e.strokeColor = some "" then none else e.strokeColor := by
  rcases he : e.strokeColor with _ | s
  · simp [compressElement, he]
  · by_cases h0 : s = "" <;> simp [compressElement, he, h0]

theorem compress_strokeWidth (e : Element) :
    (compressElement e).strokeWidth
      = if e.strokeWidth = some 1 ∨ e.strokeWidth = some 2 then none
        else e.strokeWidth := by
  rcases he : e.strokeWidth with _ | w
  · simp [compressElement, he]
  · by_cases h1 : w = 1
    · simp [compressElement, he, h1]
    · by_cases h2 : w = 2 <;> simp [compressElement, he, h1, h2]

theorem compress_strokeStyle (e : Element) :
    (compressElement e).strokeStyle
      = if e.strokeStyle = some StrokeStyle.solid then none else e.strokeStyle := by
  rcases he : e.strokeStyle with _ | s
  · simp [compressElement, he]
  · by_cases h0 : s = StrokeStyle.solid <;> simp [compressElement, he, h0]

theorem compress_strokeSharpness (e : Element) :
    (compressElement e).strokeSharpness
      = if e.strokeSharpness = some StrokeSharpness.round then none
        else e.strokeSharpness := by
  rcases he : e.strokeSharpness with _ | s
  · simp [compressElement, he]
  · by_cases h0 : s = StrokeSharpness.round <;> simp [compressElement, he, h0]

theorem compress_fillStyle (e : Element) :
    (compressElement e).fillStyle
      = if e.fillStyle = some FillStyle.solid then none else e.fillStyle := by
  rcases he : e.fillStyle with _ | s
  · simp [compressElement, he]
  · by_cases h0 : s = FillStyle.solid <;> simp [compressElement, he, h0]

theorem compress_backgroundColor (e : Element) :
    (compressElement e).backgroundColor
      = if e.backgroundColor = some "" ∨ e.backgroundColor = some "transparent"
        then none else e.backgroundColor := by
  rcases he : e.backgroundColor with _ | s
  · simp [compressElement, he]
  · by_cases h1 : s = ""
    · simp [compressElement, he, h1]
    · by_cases h2 : s = "transparent" <;> simp [compressElement, he, h1, h2]

theorem compress_roughness (e : Element) :
    (compressElement e).roughness
      = if e.roughness = some 1 then none else e.roughness := by
  rcases he : e.roughness with _ | r
  · simp [compressElement, he]
  · by_cases h0 : r = 1 <;> simp [compressElement, he, h0]

theorem compress_opacity (e : Element) :
    (compressElement e).opacity
      = if e.opacity = some 100 then none else e.opacity := by
  rcases he : e.opacity with _ | o
  · simp [compressElement, he]
  · by_cases h0 : o = 100 <;> simp [compressElement, he, h0]

theorem compress_roundness (e : Element) :
    (compressElement e).roundness
      = if e.roundness = none ∨ e.roundness = some none
          ∨ e.roundness = some (some ⟨1⟩) then none
        else e.roundness := by
  rcases he : e.roundness with _ | r
  · simp [compressElement, he]
  · rcases r with _ | rr
    · simp [compressElement, he]
    · obtain ⟨t⟩ := rr
      by_cases ht : t = 1 <;> simp [compressElement, he, ht, Roundness.mk.injEq]

theorem compress_points (e : Element) :
    (compressElement e).points
      = if e.points = none ∨ e.points = some [] then none else e.points := by
  rcases he : e.points with _ | ps
  · simp [compressElement, he]
  · by_cases h0 : ps = [] <;> simp [compressElement, he, h0]

theorem compress_textAlign (e : Element) :
    (compressElement e).textAlign
      = if e.textAlign = some TextAlign.left then none else e.textAlign := by
  rcases he : e.textAlign with _ | a
  · simp [compressElement, he]
  · by_cases h0 : a = TextAlign.left <;> simp [compressElement, he, h0]

theorem compress_verticalAlign (e : Element) :
    (compressElement e).verticalAlign
      = if e.verticalAlign = some VerticalAlign.top then none
        else e.verticalAlign := by
  rcases he : e.verticalAlign with _ | a
  · simp [compressElement, he]
  · by_cases h0 : a = VerticalAlign.top <;> simp [compressElement, he, h0]

theorem compress_groupIds (e : Element) :
    (compressElement e).groupIds
      = if e.groupIds = none ∨ e.groupIds = some [] then none else e.groupIds := by
  rcases he : e.groupIds with _ | gs
  · simp [compressElement, he]
  · by_cases h0 : gs = [] <;> simp [compressElement, he, h0]

theorem compress_frameId (e : Element) :
    (compressElement e).frameId
      = if e.frameId = none ∨ e.frameId = some none then none else e.frameId := by
  rcases he : e.frameId with _ | f
  · simp [compressElement, he]
  · rcases f with _ | s <;> simp [compressElement, he]

/-- C9 counterexample: `compressElement` does not omit every field equal to
its design-system default.  For an element whose `strokeColor` is exactly
the default `#000000`, the compressed element still carries
`strokeColor = #000000`: the field is neither omitted nor different from the
known default, refuting "that field only if its value differs from the known
design-system default". -/
theorem compressElement_keeps_default_strokeColor :
    ¬ (((compressElement
          { sampleRect "a" with strokeColor := some "#000000" }).strokeColor = none)
      ∨ ((compressElement
          { sampleRect "a" with strokeColor := some "#000000" }).strokeColor
          ≠ defaultDesignSystem.defaults.strokeColor)) := by
  decide

/-- C9 (amended): `compressElement` keeps exactly the six mandatory fields
(type, id, x, y, width, height) and includes each optional field under its
own per-field condition: `strokeWidth` is omitted when it equals 1 or 2,
`opacity` when it equals 100, `roundness` when it is null or deep-equals
`(type := 1)`, `angle` when 0, and the enumerated style fields
(strokeStyle, strokeSharpness, fillStyle, backgroundColor, textAlign,
verticalAlign) when they equal the design-system default — but
`strokeColor`, `text`, `fontSize`, `fontFamily` and `baseline` are included
whenever they are set (strokeColor whenever non-empty) even when they equal
the design-system defaults, `points`/`groupIds` whenever non-empty,
`frameId` whenever non-null, and all bookkeeping fields are dropped. -/
theorem compressElement_field_conditions (e : Element) :
    (compressElement e).id = e.id
    ∧ (compressElement e).type = e.type
    ∧ (compressElement e).x = e.x
    ∧ (compressElement e).y = e.y
    ∧ (compressElement e).width = e.width
    ∧ (compressElement e).height = e.height
    ∧ (compressElement e).angle = (if e.angle = some 0 then none else e.angle)
    ∧ (compressElement e).strokeColor
        = (if e.strokeColor = some "" then none else e.strokeColor)
    ∧ (compressElement e).strokeWidth
        = (if e.strokeWidth = some 1 ∨ e.strokeWidth = some 2 then none
            else e.strokeWidth)
    ∧ (compressElement e).strokeStyle
        = (if e.strokeStyle = some StrokeStyle.solid then none else e.strokeStyle)
    ∧ (compressElement e).strokeSharpness
        = (if e.strokeSharpness = some StrokeSharpness.round then none
            else e.strokeSharpness)
    ∧ (compressElement e).fillStyle
        = (if e.fillStyle = some FillStyle.solid then none else e.fillStyle)
    ∧ (compressElement e).backgroundColor
        = (if e.backgroundColor = some "" ∨ e.backgroundColor = some "transparent"
            then none else e.backgroundColor)
    ∧ (compressElement e).roughness
        = (if e.roughness = some 1 then none else e.roughness)
    ∧ (compressElement e).opacity
        = (if e.opacity = some 100 then none else e.opacity)
    ∧ (compressElement e).roundness
        = (if e.roundness = none ∨ e.roundness = some none
            ∨ e.roundness = some (some ⟨1⟩) then none else e.roundness)
    ∧ (compressElement e).points
        = (if e.points = none ∨ e.points = some [] then none else e.points)
    ∧ (compressElement e).text = e.text
    ∧ (compressElement e).fontSize = e.fontSize
    ∧ (compressElement e).fontFamily = e.fontFamily
    ∧ (compressElement e).textAlign
        = (if e.textAlign = some TextAlign.left then none else e.textAlign)
    ∧ (compressElement e).verticalAlign
        = (if e.verticalAlign = some VerticalAlign.top then none
            else e.verticalAlign)
    ∧ (compressElement e).baseline = e.baseline
    ∧ (compressElement e).groupIds
        = (if e.groupIds = none ∨ e.groupIds = some [] then none else e.groupIds)
    ∧ (compressElement e).frameId
        = (if e.frameId = none ∨ e.frameId = some none then none else e.frameId)
    ∧ (compressElement e).version = none
    ∧ (compressElement e).versionNonce = none
    ∧ (compressElement e).isDeleted = none
    ∧ (compressElement e).seed = none
    ∧ (compressElement e).updated = none
    ∧ (compressElement e).link = none
    ∧ (compressElement e).locked = none
    ∧ (compressElement e).lastCommittedPoint = none
    ∧ (compressElement e).startArrowhead = none
    ∧ (compressElement e).endArrowhead = none
    ∧ (compressElement e).index = none
    ∧ (compressElement e).containerId = none
    ∧ (compressElement e).originalText = none :=
  ⟨rfl, rfl, rfl, rfl, rfl, rfl, compress_angle e, compress_strokeColor e,
    compress_strokeWidth e, compress_strokeStyle e, compress_strokeSharpness e,
    compress_fillStyle e, compress_backgroundColor e, compress_roughness e,
    compress_opacity e, compress_roundness e, compress_points e, rfl, rfl, rfl,
    compress_textAlign e, compress_verticalAlign e, rfl, compress_groupIds e,
    compress_frameId e, rfl, rfl, rfl, rfl, rfl, rfl, rfl, rfl, rfl, rfl, rfl,
    rfl, rfl⟩

/-- C3: for an element built purely from the current design-system defaults
plus geometry — id (non-empty), type, x, y, width, height, every optional
visual-style field equal to the `defaultDesignSystem` default and every
other optional field absent — compressing and re-expanding with the same
defaults reconstructs the element exactly:
`applyDesignSystemDefaults (compressElement e) = e`. -/
theorem compress_apply_roundtrip_defaults (gen : List String → String)
    (e : Element) (hid : e.id ≠ "")
    (h1 : e.strokeColor = some "#000000")
    (h2 : e.strokeWidth = some 2)
    (h3 : e.strokeStyle = some StrokeStyle.solid)
    (h4 : e.strokeSharpness = some StrokeSharpness.round)
    (h5 : e.fillStyle = some FillStyle.solid)
    (h6 : e.backgroundColor = some "transparent")
    (h7 : e.roughness = some 1)
    (h8 : e.opacity = some 100)
    (h9 : e.roundness = some (some ⟨1⟩))
    (h10 : e.fontSize = some 20)
    (h11 : e.fontFamily = some 1)
    (h12 : e.textAlign = some TextAlign.left)
    (h13 : e.verticalAlign = some VerticalAlign.top)
    (h14 : e.angle = none) (h15 : e.groupIds = none) (h16 : e.frameId = none)
    (h17 : e.points = none) (h18 : e.text = none) (h19 : e.baseline = none)
    (h20 : e.version = none) (h21 : e.versionNonce = none)
    (h22 : e.isDeleted = none) (h23 : e.seed = none) (h24 : e.updated = none)
    (h25 : e.link = none) (h26 : e.locked = none)
    (h27 : e.lastCommittedPoint = none) (h28 : e.startArrowhead = none)
    (h29 : e.endArrowhead = none) (h30 : e.index = none)
    (h31 : e.containerId = none) (h32 : e.originalText = none) :
    applyDesignSystemDefaults gen defaultDesignSystem
      (Element.toPartial (compressElement e)) = e := by
  ext1 <;>
    simp [applyDesignSystemDefaults, Element.toPartial, defaultDesignSystem,
      jsCoalesce, jsCoalesceNullable, compress_angle, compress_strokeColor,
      compress_strokeWidth, compress_strokeStyle, compress_strokeSharpness,
      compress_fillStyle, compress_backgroundColor, compress_roughness,
      compress_opacity, compress_roundness, compress_points, compress_textAlign,
      compress_verticalAlign, compress_groupIds, compress_frameId,
      compressElement, hid, h1, h2, h3, h4, h5, h6, h7, h8, h9, h10, h11, h12,
      h13, h14, h15, h16, h17, h18, h19, h20, h21, h22, h23, h24, h25, h26,
      h27, h28, h29, h30, h31, h32]

theorem compress_apply_roundtrip_defaults_witness :
    applyDesignSystemDefaults concatFresh defaultDesignSystem
      (Element.toPartial (compressElement defaultStyledRect)) = defaultStyledRect :=
  compress_apply_roundtrip_defaults concatFresh defaultStyledRect (by decide)
    rfl rfl rfl rfl rfl rfl rfl rfl rfl rfl rfl rfl rfl rfl rfl rfl rfl rfl
    rfl rfl rfl rfl rfl rfl rfl rfl rfl rfl rfl rfl rfl rfl

end FridayStyles
